import Mathlib

/-!
Verification development for the dynamodb-manager repository.

The Go sources are shallowly embedded: Go strings are modelled as lists of
Unicode code points (`GoStr`), Go's `len` on a string as the UTF-8 byte
length, Go `int` arithmetic as `Int` with truncating division (`Int.tdiv`),
and the AWS repository collaborator as an explicit environment structure.
-/

/-- A Go string, viewed as its sequence of Unicode code points (what Go's
`[]rune(s)` produces for valid UTF-8 input). -/
abbrev GoStr := List Char

/-- Number of bytes in the UTF-8 encoding of one code point. -/
def charUtf8Len (c : Char) : Nat :=
  if c.toNat < 128 then 1
  else if c.toNat < 2048 then 2
  else if c.toNat < 65536 then 3
  else 4

/-- Go's `len` on a string: the UTF-8 byte length, not the code-point count. -/
def byteLen (s : GoStr) : Nat := (s.map charUtf8Len).sum

/-- Fuel-indexed unit-cost Levenshtein distance.  The fuel argument only
makes the classical three-way recursion structurally terminating; with fuel
at least `xs.length + ys.length` it never reaches the fuel-exhausted case
(see `levFuel_fuel_irrelevant`). -/
def levFuel : Nat → List Char → List Char → Nat
  | _, [], ys => ys.length
  | _, _ :: xs, [] => xs.length + 1
  | Nat.succ fuel, x :: xs, y :: ys =>
      if x = y then levFuel fuel xs ys
      else 1 + min (levFuel fuel xs ys)
                   (min (levFuel fuel (x :: xs) ys) (levFuel fuel xs (y :: ys)))
  | 0, _ :: _, _ :: _ => 0

/-- Unit-cost Levenshtein distance between two rune sequences: the model of
`levenshtein.DistanceForStrings(..., levenshtein.DefaultOptions)` (insertion,
deletion and substitution all cost 1). -/
def levDist (xs ys : List Char) : Nat := levFuel (xs.length + ys.length) xs ys

theorem levFuel_fuel_irrelevant :
    ∀ (f g : Nat) (xs ys : List Char), xs.length + ys.length ≤ f →
      xs.length + ys.length ≤ g → levFuel f xs ys = levFuel g xs ys := by
  intro f
  induction f using Nat.strong_induction_on with
  | _ f ih =>
    intro g xs ys hf hg
    match xs, ys with
    | [], ys => cases g <;> cases f <;> rfl
    | x :: xs, [] => cases g <;> cases f <;> rfl
    | x :: xs, y :: ys =>
      match f, g with
      | Nat.succ f', Nat.succ g' =>
        simp only [List.length_cons] at hf hg
        have h1 : xs.length + ys.length ≤ f' := by omega
        have h2 : (x :: xs).length + ys.length ≤ f' := by simp; omega
        have h3 : xs.length + (y :: ys).length ≤ f' := by simp; omega
        have g1 : xs.length + ys.length ≤ g' := by omega
        have g2 : (x :: xs).length + ys.length ≤ g' := by simp; omega
        have g3 : xs.length + (y :: ys).length ≤ g' := by simp; omega
        have hf' : f' < f' + 1 := Nat.lt_succ_self f'
        simp only [levFuel]
        rw [ih f' hf' g' xs ys h1 g1,
        ih f' hf' g' (x :: xs) ys h2 g2,
        ih f' hf' g' xs (y :: ys) h3 g3]

theorem levDist_nil_left (ys : List Char) : levDist [] ys = ys.length := by
  cases ys <;> rfl

theorem levDist_nil_right (xs : List Char) : levDist xs [] = xs.length := by
  cases xs <;> rfl

theorem levDist_cons_cons (x y : Char) (xs ys : List Char) :
    levDist (x :: xs) (y :: ys) =
      if x = y then levDist xs ys
      else 1 + min (levDist xs ys)
                   (min (levDist (x :: xs) ys) (levDist xs (y :: ys))) := by
  show levFuel (xs.length + 1 + (ys.length + 1)) (x :: xs) (y :: ys) = _
  have : xs.length + 1 + (ys.length + 1) = (xs.length + ys.length + 1) + 1 := by omega
  rw [this]
  simp only [levFuel]
  rw [levFuel_fuel_irrelevant (xs.length + ys.length + 1) (xs.length + ys.length) xs ys
        (by omega) (by omega),
      levFuel_fuel_irrelevant (xs.length + ys.length + 1) ((x :: xs).length + ys.length)
        (x :: xs) ys (by simp only [List.length_cons]; omega)
        (by simp only [List.length_cons]; omega),
      levFuel_fuel_irrelevant (xs.length + ys.length + 1) (xs.length + (y :: ys).length)
        xs (y :: ys) (by simp only [List.length_cons]; omega)
        (by simp only [List.length_cons]; omega)]
  rfl

/-- The distance never exceeds the larger of the two code-point lengths. -/
theorem levDist_le_max (xs ys : List Char) :
    levDist xs ys ≤ max xs.length ys.length := by
  have key : ∀ (n : Nat) (xs ys : List Char), xs.length + ys.length ≤ n →
      levDist xs ys ≤ max xs.length ys.length := by
    intro n
    induction n with
    | zero =>
      intro xs ys h
      match xs, ys with
      | [], [] => simp [levDist_nil_left]
      | x :: xs, _ => simp at h
      | [], y :: ys => simp at h
    | succ n ih =>
      intro xs ys h
      match xs, ys with
      | [], ys => simp [levDist_nil_left]
      | x :: xs, [] => simp [levDist_nil_right]
      | x :: xs, y :: ys =>
        rw [levDist_cons_cons]
        by_cases hxy : x = y
        · rw [if_pos hxy]
          have h1 := ih xs ys (by simp only [List.length_cons] at h; omega)
          simp only [List.length_cons]
          omega
        · rw [if_neg hxy]
          have h1 := ih xs ys (by simp only [List.length_cons] at h; omega)
          have h2 : min (levDist xs ys)
              (min (levDist (x :: xs) ys) (levDist xs (y :: ys))) ≤
              levDist xs ys := min_le_left _ _
          simp only [List.length_cons]
          omega
  exact key (xs.length + ys.length) xs ys (le_refl _)

theorem length_le_byteLen (s : GoStr) : s.length ≤ byteLen s := by
  induction s with
  | nil => simp [byteLen]
  | cons c cs ih =>
    have hc : 1 ≤ charUtf8Len c := by
      unfold charUtf8Len
      split <;> try omega
      split <;> try omega
      split <;> omega
    simp only [byteLen, List.map_cons, List.sum_cons, List.length_cons]
    simp only [byteLen] at ih
    omega

/-- The fixed similarity threshold from `search.go` (`const FuzzyRatio = 80`). -/
def FuzzyRatio : Int := 80

/-- Model of `search.NormalizeRatio`: clamps an integer ratio into [0, 100]. -/
def NormalizeRatio (ratio : Int) : Int :=
  if ratio < 0 then 0
  else if ratio > 100 then 100
  else ratio

/-- Model of `search.FuzzyMatchRatio`.  The distance is computed over the
code points (`[]rune`), but `maxLen` uses Go's `len` on the strings, which
counts UTF-8 bytes.  Go's `/` on `int` truncates toward zero (`Int.tdiv`). -/
def FuzzyMatchRatio (str1 str2 : GoStr) : Int :=
  let distance : Int := levDist str1 str2
  let maxLen : Nat := if byteLen str2 > byteLen str1 then byteLen str2 else byteLen str1
  if maxLen = 0 then 100
  else Int.tdiv (((maxLen : Int) - distance) * 100) (maxLen : Int)

/-- Modelled from the spec: the similarity score as §4.1 and claim C1 state
it, with `maxLen` the larger of the two code-point counts (explicitly "not
bytes"), the floored quotient, and a final clamp into [0, 100]. -/
def specSimilarityScore (a b : GoStr) : Int :=
  let distance : Int := levDist a b
  let maxLen : Nat := max a.length b.length
  if maxLen = 0 then 100
  else min 100 (max 0 (Int.tdiv (((maxLen : Int) - distance) * 100) (maxLen : Int)))

/-- Modelled from the spec, amended per the counterexample: the same formula
but with `maxLen` the larger of the two UTF-8 byte lengths, matching Go's
`len`. -/
def specSimilarityScoreBytes (a b : GoStr) : Int :=
  let distance : Int := levDist a b
  let maxLen : Nat := max (byteLen a) (byteLen b)
  if maxLen = 0 then 100
  else min 100 (max 0 (Int.tdiv (((maxLen : Int) - distance) * 100) (maxLen : Int)))

/-- Claim C1 is false as stated: for `a = "é"` (one code point, two UTF-8
bytes) and `b = ""`, the code computes `maxLen = 2` via Go's byte-counting
`len` and returns `(2-1)*100/2 = 50`, while the claimed code-point formula
(`maxLen = 1`) gives `0`. -/
theorem C1_counterexample :
    ¬ (NormalizeRatio (FuzzyMatchRatio ['é'] []) = specSimilarityScore ['é'] []) := by
  decide

/-- Claim C1, amended: the similarity score equals 100 when both strings are
empty and otherwise equals `floor((maxLen - distance) * 100 / maxLen)`
clamped into [0,100], where `distance` is the unit-cost edit distance over
Unicode code points and `maxLen` is the larger of the two strings' UTF-8
byte lengths (Go's `len`), not their code-point counts. -/
theorem C1_amended_score_eq_byte_formula (a b : GoStr) :
    NormalizeRatio (FuzzyMatchRatio a b) = specSimilarityScoreBytes a b := by
  simp only [NormalizeRatio, FuzzyMatchRatio, specSimilarityScoreBytes]
  have hmax : (if byteLen b > byteLen a then byteLen b else byteLen a)
      = max (byteLen a) (byteLen b) := by
    split <;> omega
  rw [hmax]
  by_cases h0 : max (byteLen a) (byteLen b) = 0
  · rw [if_pos h0, if_pos h0]
    norm_num
  · rw [if_neg h0, if_neg h0]
    have hd : levDist a b ≤ max (byteLen a) (byteLen b) := by
      have h1 := levDist_le_max a b
      have h2 := length_le_byteLen a
      have h3 := length_le_byteLen b
      omega
    have hsub : (((max (byteLen a) (byteLen b) : Nat) : Int) - ((levDist a b : Nat) : Int))
        = ((max (byteLen a) (byteLen b) - levDist a b : Nat) : Int) := by
      omega
    rw [hsub]
    have hcastmul : (((max (byteLen a) (byteLen b) - levDist a b : Nat) : Int) * 100)
        = (((max (byteLen a) (byteLen b) - levDist a b) * 100 : Nat) : Int) := by
      push_cast
      ring
    rw [hcastmul]
    have htdiv : Int.tdiv (((max (byteLen a) (byteLen b) - levDist a b) * 100 : Nat) : Int)
          (((max (byteLen a) (byteLen b) : Nat) : Nat) : Int)
        = (((max (byteLen a) (byteLen b) - levDist a b) * 100 / max (byteLen a) (byteLen b)
            : Nat) : Int) := rfl
    rw [htdiv]
    have hle : (max (byteLen a) (byteLen b) - levDist a b) * 100 / max (byteLen a) (byteLen b)
        ≤ 100 := by
      have hmul : (max (byteLen a) (byteLen b) - levDist a b) * 100
          ≤ max (byteLen a) (byteLen b) * 100 :=
        Nat.mul_le_mul_right _ (Nat.sub_le _ _)
      calc (max (byteLen a) (byteLen b) - levDist a b) * 100 / max (byteLen a) (byteLen b)
          ≤ max (byteLen a) (byteLen b) * 100 / max (byteLen a) (byteLen b) :=
            Nat.div_le_div_right hmul
        _ = 100 := Nat.mul_div_cancel_left 100 (Nat.pos_of_ne_zero h0)
    have hv0 : (0 : Int) ≤ (((max (byteLen a) (byteLen b) - levDist a b) * 100
        / max (byteLen a) (byteLen b) : Nat) : Int) := Int.ofNat_nonneg _
    have hv100 : (((max (byteLen a) (byteLen b) - levDist a b) * 100
        / max (byteLen a) (byteLen b) : Nat) : Int) ≤ 100 := by
      exact_mod_cast hle
    rw [if_neg (by omega), if_neg (by omega)]
    omega

/-- Model of Go's `strings.ToLower`, applied code-point-wise.  `Char.toLower`
covers the ASCII range; the claims below only depend on both the code model
and the claim statement applying the same lowering, never on the mapping of
any particular non-ASCII character. -/
def goToLower (s : GoStr) : GoStr := s.map Char.toLower

/-- Helper for `goContains`: the second list is an initial block of the first. -/
def hasStart : List Char → List Char → Bool
  | _, [] => true
  | [], _ :: _ => false
  | c :: cs, d :: ds => c == d && hasStart cs ds

/-- Model of Go's `strings.Contains s sub` (for valid UTF-8, byte-level and
code-point-level substring occurrence coincide). -/
def goContains : List Char → List Char → Bool
  | [], sub => sub.isEmpty
  | c :: cs, sub => hasStart (c :: cs) sub || goContains cs sub

/-- An AWS resource tag (`types.Tag`): a key/value pair of strings. -/
structure AwsTag where
  key : GoStr
  value : GoStr
deriving DecidableEq

/-- One entry of the search result: the model of the
`map[string]string{"Name": ..., "ARN": ...}` records built by `search.go`. -/
structure TableMatch where
  name : GoStr
  arn : GoStr
deriving DecidableEq

/-- The repository collaborator as the discovery pipeline sees it:
`pages` drives the paginated `ListTables` loop inside `client.GetTableList`
(each page either yields names or fails), `arnOf` models
`client.GetTableArn` and `tagsOf` models `client.GetTableTags`. -/
structure SearchEnv where
  pages : List (Except GoStr (List GoStr))
  arnOf : GoStr → Except GoStr GoStr
  tagsOf : GoStr → Except GoStr (List AwsTag)

/-- One repository interaction, recorded so that theorems can count calls. -/
inductive RepoCall
  | listTables
  | describeTable (name : GoStr)
  | listTags (arn : GoStr)
deriving DecidableEq

/-- Log severity of the zap-backed logger. -/
inductive LogLevel
  | debug
  | info
  | warn
  | error
deriving DecidableEq

/-- A log record: severity plus the (static) Go format string. -/
abbrev LogEntry := LogLevel × String

def msgErrFindingTables : String := "Error finding DynamoDB tables: %v"
def msgFuzzyBefore : String := "searchTablesByFuzzyName before"
def msgCalculating : String :=
  "Calculating: fuzzyname:%s - tablename:%s - similarityScore: %d\n"
def msgErrTableArn : String := "Error getting table ARN: %v"
def msgFuzzyMatch : String :=
  "searchTablesByFuzzyName: fuzzyname:%s - tablename:%s - tableArn: %s\n"
def msgCheckTags : String := "Check the tags of table name: %s\n"
def msgErrGetTags : String := "Get tags for arn:%s, failed due to:%v"
def msgTagDebug : String := "table_name: %s - tableArn: %s, Key: %s, Value: %s\n"
def msgBeginBoth : String :=
  "Begin to search the matched tables via fuzzy name:%s, tag:%s, ..."
def msgBeginFuzzy : String := "Begin to search the matched tables via fuzzy name:%s, ..."
def msgBeginTag : String := "Begin to search the matched tables via tag:%s, ..."
def msgInvalidConditions : String :=
  "Invalid search conditions: search table name or tag value should not be empty!"
def msgEmptyResults : String :=
  "Empty search results - please check the search conditions, tableFuzzyName:%s - tagValue:%s"
def msgSearchResults : String := "Search results:"
def msgTableEntry : String := "Table Name: %s, ARN: %s\n"

/-- Model of `client.GetTableList`: the paginator loop appends each page's
names; on a page error it breaks, returning the names accumulated so far
together with the error (Go returns the pair `(tableNames, err)`). -/
def GetTableList : List (Except GoStr (List GoStr)) → List GoStr × Option GoStr
  | [] => ([], none)
  | .error e :: _ => ([], some e)
  | .ok ns :: rest =>
    let r := GetTableList rest
    (ns ++ r.1, r.2)

/-- Result accumulated by one of the per-candidate loops of `search.go`. -/
structure StepOut where
  matchingTables : List TableMatch
  calls : List RepoCall
  logs : List LogEntry

/-- What a search function returns plus its observable effects.  `result`
is `none` where Go returns a nil slice. -/
structure SearchOutcome where
  result : Option (List TableMatch)
  calls : List RepoCall
  logs : List LogEntry

/-- The per-candidate loop of `searchTablesByFuzzyName`: a candidate passes
immediately if it contains the pattern as a literal substring; otherwise its
normalized fuzzy ratio against the lower-cased pattern must reach
`FuzzyRatio`.  Passing candidates get their ARN resolved; a describe failure
is logged and the candidate skipped. -/
def fuzzyLoop (env : SearchEnv) (fuzzyName : GoStr) : List GoStr → StepOut
  | [] => ⟨[], [], []⟩
  | n :: rest =>
    let so := fuzzyLoop env fuzzyName rest
    let tryArn : StepOut :=
      match env.arnOf n with
      | .error _ =>
        ⟨so.matchingTables, .describeTable n :: so.calls, (.warn, msgErrTableArn) :: so.logs⟩
      | .ok a =>
        ⟨⟨n, a⟩ :: so.matchingTables, .describeTable n :: so.calls,
         (.info, msgFuzzyMatch) :: so.logs⟩
    if goContains n fuzzyName then tryArn
    else if NormalizeRatio (FuzzyMatchRatio (goToLower fuzzyName) (goToLower n))
        < FuzzyRatio then
      ⟨so.matchingTables, so.calls, (.debug, msgCalculating) :: so.logs⟩
    else ⟨tryArn.matchingTables, tryArn.calls, (.debug, msgCalculating) :: tryArn.logs⟩

/-- Model of `searchTablesByFuzzyName`.  On a listing failure it logs the
error and returns nil (discarding the partially listed names). -/
def searchTablesByFuzzyName (env : SearchEnv) (fuzzyName : GoStr) : SearchOutcome :=
  match GetTableList env.pages with
  | (_, some _) => ⟨none, [.listTables], [(.error, msgErrFindingTables)]⟩
  | (names, none) =>
    let o := fuzzyLoop env fuzzyName names
    ⟨some o.matchingTables, .listTables :: o.calls, (.info, msgFuzzyBefore) :: o.logs⟩

/-- The inner tag scan of `searchTablesByTagValue`: walks the tag list,
logging each tag, and stops at the first tag whose value equals the wanted
value exactly (the key is ignored). -/
def findTagValue (tagValue : GoStr) : List AwsTag → Bool × List LogEntry
  | [] => (false, [])
  | t :: ts =>
    if t.value = tagValue then (true, [(.debug, msgTagDebug)])
    else
      let r := findTagValue tagValue ts
      (r.1, (.debug, msgTagDebug) :: r.2)

/-- The per-candidate loop of `searchTablesByTagValue`: resolve the ARN,
fetch the tags, keep the candidate when some tag value is an exact match;
per-candidate failures are logged and skipped. -/
def tagLoop (env : SearchEnv) (tagValue : GoStr) : List GoStr → StepOut
  | [] => ⟨[], [], []⟩
  | n :: rest =>
    let so := tagLoop env tagValue rest
    match env.arnOf n with
    | .error _ =>
      ⟨so.matchingTables, .describeTable n :: so.calls,
       (.info, msgCheckTags) :: (.warn, msgErrTableArn) :: so.logs⟩
    | .ok a =>
      match env.tagsOf a with
      | .error _ =>
        ⟨so.matchingTables, .describeTable n :: .listTags a :: so.calls,
         (.info, msgCheckTags) :: (.warn, msgErrGetTags) :: so.logs⟩
      | .ok ts =>
        let f := findTagValue tagValue ts
        if f.1 then
          ⟨⟨n, a⟩ :: so.matchingTables, .describeTable n :: .listTags a :: so.calls,
           (.info, msgCheckTags) :: f.2 ++ so.logs⟩
        else
          ⟨so.matchingTables, .describeTable n :: .listTags a :: so.calls,
           (.info, msgCheckTags) :: f.2 ++ so.logs⟩

/-- Model of `searchTablesByTagValue`.  A non-nil `tableList` restricts the
scan to those names (Go copies the slice); a nil one makes the function list
all tables itself, returning nil if that listing fails.  The Go function's
`matchingTables` slice stays nil when nothing is appended, so the result is
`none` exactly when no candidate matched. -/
def searchTablesByTagValue (env : SearchEnv) (tagValue : GoStr)
    (tableList : Option (List GoStr)) : SearchOutcome :=
  match tableList with
  | some l =>
    let o := tagLoop env tagValue l
    ⟨if o.matchingTables = [] then none else some o.matchingTables, o.calls, o.logs⟩
  | none =>
    match GetTableList env.pages with
    | (_, some _) => ⟨none, [.listTables], [(.error, msgErrFindingTables)]⟩
    | (names, none) =>
      let o := tagLoop env tagValue names
      ⟨if o.matchingTables = [] then none else some o.matchingTables, .listTables :: o.calls, o.logs⟩

/-- The trailing logging of `ExecuteSearch`: a warning when the result is nil
or empty, then the result listing. -/
def finishLogs (result : Option (List TableMatch)) : List LogEntry :=
  (if result.getD [] = [] then [(.warn, msgEmptyResults)] else [])
    ++ (.info, msgSearchResults) :: (result.getD []).map (fun _ => ((.info, msgTableEntry) : LogEntry))

/-- Model of `search.ExecuteSearch`.  With both a fuzzy name and a tag value
it runs the fuzzy search first, projects the surviving names, and hands them
to the tag search — except that an empty (or nil) fuzzy result yields a nil
`tableList`, which makes `searchTablesByTagValue` scan the full table list.
With empty inputs it logs an error and returns nil immediately. -/
def ExecuteSearch (env : SearchEnv) (tableFuzzyName tagValue : GoStr) : SearchOutcome :=
  if tableFuzzyName ≠ [] ∧ tagValue ≠ [] then
    let fm := searchTablesByFuzzyName env tableFuzzyName
    let tableList := (fm.result.getD []).map (fun m => m.name)
    let tv := searchTablesByTagValue env tagValue
        (if tableList = [] then none else some tableList)
    ⟨tv.result, fm.calls ++ tv.calls,
     ((.info, msgBeginBoth) :: fm.logs ++ tv.logs) ++ finishLogs tv.result⟩
  else if tableFuzzyName ≠ [] then
    let fm := searchTablesByFuzzyName env tableFuzzyName
    ⟨fm.result, fm.calls, ((.info, msgBeginFuzzy) :: fm.logs) ++ finishLogs fm.result⟩
  else if tagValue ≠ [] then
    let tv := searchTablesByTagValue env tagValue none
    ⟨tv.result, tv.calls, ((.info, msgBeginTag) :: tv.logs) ++ finishLogs tv.result⟩
  else ⟨none, [], [(.error, msgInvalidConditions)]⟩

/-- A resource (identified by its ARN) carries some tag whose value equals
`tagValue` exactly, per the environment's tag listing. -/
def hasTagWithValue (env : SearchEnv) (arn tagValue : GoStr) : Bool :=
  match env.tagsOf arn with
  | .error _ => false
  | .ok ts => ts.any (fun t => t.value == tagValue)

theorem fuzzyLoop_matchingTables_cons (env : SearchEnv) (fuzzyName n : GoStr)
    (rest : List GoStr) :
    (fuzzyLoop env fuzzyName (n :: rest)).matchingTables =
      if goContains n fuzzyName = true ∨
          FuzzyRatio ≤ NormalizeRatio (FuzzyMatchRatio (goToLower fuzzyName) (goToLower n)) then
        match env.arnOf n with
        | .ok a => ⟨n, a⟩ :: (fuzzyLoop env fuzzyName rest).matchingTables
        | .error _ => (fuzzyLoop env fuzzyName rest).matchingTables
      else (fuzzyLoop env fuzzyName rest).matchingTables := by
  by_cases hc : goContains n fuzzyName = true
  · rw [if_pos (Or.inl hc)]
    simp only [fuzzyLoop, hc, if_true]
    cases env.arnOf n <;> rfl
  · by_cases hr : NormalizeRatio (FuzzyMatchRatio (goToLower fuzzyName) (goToLower n))
        < FuzzyRatio
    · rw [if_neg (by
        rintro (h | h)
        · exact hc h
        · exact absurd hr (not_lt.mpr h))]
      simp only [fuzzyLoop, hc]
      simp only [Bool.false_eq_true, if_false, if_pos hr]
    · rw [if_pos (Or.inr (not_lt.mp hr))]
      simp only [fuzzyLoop, hc]
      simp only [Bool.false_eq_true, if_false, if_neg hr]
      cases env.arnOf n <;> rfl

theorem mem_fuzzyLoop (env : SearchEnv) (fuzzyName : GoStr) (l : List GoStr)
    (m : TableMatch) :
    m ∈ (fuzzyLoop env fuzzyName l).matchingTables ↔
      m.name ∈ l ∧
      (goContains m.name fuzzyName = true ∨
        FuzzyRatio ≤ NormalizeRatio (FuzzyMatchRatio (goToLower fuzzyName) (goToLower m.name))) ∧
      env.arnOf m.name = Except.ok m.arn := by
  induction l with
  | nil => simp [fuzzyLoop]
  | cons n rest ih =>
    rw [fuzzyLoop_matchingTables_cons]
    by_cases hp : goContains n fuzzyName = true ∨
        FuzzyRatio ≤ NormalizeRatio (FuzzyMatchRatio (goToLower fuzzyName) (goToLower n))
    · rw [if_pos hp]
      cases harn : env.arnOf n with
      | error e =>
        rw [ih]
        simp only [List.mem_cons]
        constructor
        · rintro ⟨h1, h2, h3⟩
          exact ⟨Or.inr h1, h2, h3⟩
        · rintro ⟨h1 | h1, h2, h3⟩
          · rw [h1, harn] at h3
            exact Except.noConfusion h3
          · exact ⟨h1, h2, h3⟩
      | ok a =>
        simp only [List.mem_cons, ih]
        constructor
        · rintro (rfl | ⟨h1, h2, h3⟩)
          · exact ⟨Or.inl rfl, by simpa using hp, by simpa using harn⟩
          · exact ⟨Or.inr h1, h2, h3⟩
        · rintro ⟨h1 | h1, h2, h3⟩
          · left
            rw [h1, harn] at h3
            cases m
            simp only at h1
            injection h3 with h3
            simp [h1, h3]
          · right
            exact ⟨h1, h2, h3⟩
    · rw [if_neg hp]
      rw [ih]
      simp only [List.mem_cons]
      constructor
      · rintro ⟨h1, h2, h3⟩
        exact ⟨Or.inr h1, h2, h3⟩
      · rintro ⟨h1 | h1, h2, h3⟩
        · rw [h1] at h2
          exact absurd h2 hp
        · exact ⟨h1, h2, h3⟩

theorem findTagValue_any (tagValue : GoStr) (ts : List AwsTag) :
    (findTagValue tagValue ts).1 = ts.any (fun t => t.value == tagValue) := by
  induction ts with
  | nil => rfl
  | cons t ts ih =>
    simp only [findTagValue, List.any_cons]
    by_cases h : t.value = tagValue
    · simp [h]
    · simp only [if_neg h, ih]
      have : (t.value == tagValue) = false := by
        simpa using h
      simp [this]

theorem mem_tagLoop (env : SearchEnv) (tagValue : GoStr) (l : List GoStr)
    (m : TableMatch) (h : m ∈ (tagLoop env tagValue l).matchingTables) :
    m.name ∈ l ∧ env.arnOf m.name = Except.ok m.arn ∧
      hasTagWithValue env m.arn tagValue = true := by
  induction l with
  | nil => simp [tagLoop] at h
  | cons n rest ih =>
    revert h
    simp only [tagLoop]
    cases harn : env.arnOf n with
    | error e =>
      dsimp only
      intro h
      obtain ⟨h1, h2, h3⟩ := ih h
      exact ⟨List.mem_cons_of_mem _ h1, h2, h3⟩
    | ok a =>
      dsimp only
      cases htags : env.tagsOf a with
      | error e =>
        dsimp only
        intro h
        obtain ⟨h1, h2, h3⟩ := ih h
        exact ⟨List.mem_cons_of_mem _ h1, h2, h3⟩
      | ok ts =>
        dsimp only
        by_cases hf : (findTagValue tagValue ts).1 = true
        · simp only [hf, if_true]
          intro h
          rcases List.mem_cons.mp h with rfl | hm
          · refine ⟨List.mem_cons_self _ _, by simpa using harn, ?_⟩
            simp only [hasTagWithValue]
            rw [show env.tagsOf (TableMatch.mk n a).arn = Except.ok ts from htags]
            dsimp only
            rw [← findTagValue_any]
            exact hf
          · obtain ⟨h1, h2, h3⟩ := ih hm
            exact ⟨List.mem_cons_of_mem _ h1, h2, h3⟩
        · simp only [hf]
          simp only [Bool.false_eq_true, if_false]
          intro h
          obtain ⟨h1, h2, h3⟩ := ih h
          exact ⟨List.mem_cons_of_mem _ h1, h2, h3⟩

/-- Environment for claims about listing failures: the first page yields one
table name, the second page fails. -/
def envC2 : SearchEnv :=
  { pages := [Except.ok ["atbl".toList], Except.error "boom".toList]
  , arnOf := fun _ => Except.ok "arn-a".toList
  , tagsOf := fun _ => Except.ok [] }

/-- Claim C2 is false as stated: with one successfully listed page containing
a candidate ("atbl") that matches the pattern exactly, followed by a listing
failure, `GetTableList` does return the accumulated partial name list
together with the failure, but both discovery functions discard it and
return nil — the accumulated match is not returned and the failure is not
surfaced (the result type has no error channel). -/
theorem C2_counterexample :
    GetTableList envC2.pages = (["atbl".toList], some "boom".toList) ∧
      (searchTablesByFuzzyName envC2 "atbl".toList).result = none ∧
      (searchTablesByTagValue envC2 "t".toList none).result = none := by
  decide

/-- Claim C2, amended: when the listing call fails, the listing operation
itself returns the names accumulated so far together with the failure, but
discovery discards those partial results entirely: it stops after the
listing call, logs the error, and returns nil, with no accumulated matches
and no failure in its return value. -/
theorem C2_amended_listing_failure_discards (env : SearchEnv)
    (fuzzyName tagValue e : GoStr) (h : (GetTableList env.pages).2 = some e) :
    (searchTablesByFuzzyName env fuzzyName).result = none ∧
      (searchTablesByFuzzyName env fuzzyName).calls = [RepoCall.listTables] ∧
      (searchTablesByFuzzyName env fuzzyName).logs
        = [(LogLevel.error, msgErrFindingTables)] ∧
      (searchTablesByTagValue env tagValue none).result = none ∧
      (searchTablesByTagValue env tagValue none).calls = [RepoCall.listTables] ∧
      (searchTablesByTagValue env tagValue none).logs
        = [(LogLevel.error, msgErrFindingTables)] := by
  rcases hgl : GetTableList env.pages with ⟨ns, err⟩
  rw [hgl] at h
  simp only at h
  subst h
  simp [searchTablesByFuzzyName, searchTablesByTagValue, hgl]

/-- Witness for `C2_amended_listing_failure_discards` at the concrete
environment `envC2`. -/
theorem C2_amended_witness :
    (GetTableList envC2.pages).2 = some "boom".toList ∧
      ((searchTablesByFuzzyName envC2 "atbl".toList).result = none ∧
        (searchTablesByFuzzyName envC2 "atbl".toList).calls = [RepoCall.listTables] ∧
        (searchTablesByFuzzyName envC2 "atbl".toList).logs
          = [(LogLevel.error, msgErrFindingTables)] ∧
        (searchTablesByTagValue envC2 "t".toList none).result = none ∧
        (searchTablesByTagValue envC2 "t".toList none).calls = [RepoCall.listTables] ∧
        (searchTablesByTagValue envC2 "t".toList none).logs
          = [(LogLevel.error, msgErrFindingTables)]) :=
  ⟨by decide,
   C2_amended_listing_failure_discards envC2 "atbl".toList "t".toList "boom".toList
     (by decide)⟩

/-- Claim C9: with both the name pattern and the tag value empty,
`ExecuteSearch` logs the invalid-conditions error and returns nil
immediately, issuing no repository calls at all. -/
theorem C9_empty_inputs_defensive (env : SearchEnv) :
    ExecuteSearch env [] [] =
      { result := none, calls := [], logs := [(LogLevel.error, msgInvalidConditions)] } := by
  rfl

/-- Claim C6: with a name pattern and no tag value, a candidate passes the
name filter — i.e. ends up in the fuzzy search result, given its ARN
resolves — if and only if it contains the pattern as a case-sensitive
literal substring, or the clamped similarity score of the lower-cased
pattern against the lower-cased name reaches the fixed threshold 80. -/
theorem C6_name_filter_pass_iff (env : SearchEnv) (fuzzyName name a : GoStr)
    (names : List GoStr) (hl : GetTableList env.pages = (names, none))
    (hn : name ∈ names) (ha : env.arnOf name = Except.ok a) :
    ((⟨name, a⟩ : TableMatch) ∈ (searchTablesByFuzzyName env fuzzyName).result.getD []) ↔
      (goContains name fuzzyName = true ∨
        (80 : Int) ≤ NormalizeRatio (FuzzyMatchRatio (goToLower fuzzyName) (goToLower name))) := by
  simp only [searchTablesByFuzzyName, hl, Option.getD_some]
  rw [mem_fuzzyLoop]
  simp only [FuzzyRatio]
  constructor
  · rintro ⟨_, h2, _⟩
    exact h2
  · intro h2
    exact ⟨hn, h2, ha⟩

/-- Environment for the C6 witness: one table "order1", resolvable ARN. -/
def envC6 : SearchEnv :=
  { pages := [Except.ok ["order1".toList]]
  , arnOf := fun _ => Except.ok "arnO".toList
  , tagsOf := fun _ => Except.ok [] }

/-- Witness for `C6_name_filter_pass_iff`: pattern "orders" against candidate
"order1" (no literal substring; similarity score 83 ≥ 80). -/
theorem C6_name_filter_witness :
    GetTableList envC6.pages = (["order1".toList], none) ∧
      "order1".toList ∈ ["order1".toList] ∧
      envC6.arnOf "order1".toList = Except.ok "arnO".toList ∧
      (((⟨"order1".toList, "arnO".toList⟩ : TableMatch) ∈
          (searchTablesByFuzzyName envC6 "orders".toList).result.getD []) ↔
        (goContains "order1".toList "orders".toList = true ∨
          (80 : Int) ≤ NormalizeRatio
            (FuzzyMatchRatio (goToLower "orders".toList) (goToLower "order1".toList)))) :=
  ⟨by decide, by decide, rfl,
   C6_name_filter_pass_iff envC6 "orders".toList "order1".toList "arnO".toList
     ["order1".toList] (by decide) (by decide) rfl⟩

/-- Environment for the C5 counterexample: one table "zzz" (which fails the
name filter for pattern "abc") carrying a tag with value "t". -/
def envC5 : SearchEnv :=
  { pages := [Except.ok ["zzz".toList]]
  , arnOf := fun _ => Except.ok "arn-z".toList
  , tagsOf := fun _ => Except.ok [{ key := "k".toList, value := "t".toList }] }

/-- Claim C5 is false as stated: searching with pattern "abc" and tag value
"t" returns the table "zzz" — because the name stage matched nothing, the
nil name list makes the tag stage scan the full table list — while the
name-only search returns nothing, so the combined result is not a subset of
the name-only result. -/
theorem C5_counterexample :
    ((⟨"zzz".toList, "arn-z".toList⟩ : TableMatch) ∈
        (ExecuteSearch envC5 "abc".toList "t".toList).result.getD []) ∧
      ¬ ((⟨"zzz".toList, "arn-z".toList⟩ : TableMatch) ∈
        (ExecuteSearch envC5 "abc".toList []).result.getD []) := by
  decide

/-- Claim C5, amended: provided the name stage returns a non-empty match
list, discovery with both filters is a subset of discovery with the name
pattern alone intersected with the resources carrying a tag of the given
value (key ignored); when the name stage returns no matches the tag filter
is applied to the full candidate list instead, and the containment can
fail. -/
theorem C5_amended_and_semantics (env : SearchEnv) (fuzzyName tagValue : GoStr)
    (hf : fuzzyName ≠ []) (ht : tagValue ≠ [])
    (hne : (searchTablesByFuzzyName env fuzzyName).result.getD [] ≠ []) :
    ∀ m ∈ (ExecuteSearch env fuzzyName tagValue).result.getD [],
      m ∈ (ExecuteSearch env fuzzyName []).result.getD [] ∧
        hasTagWithValue env m.arn tagValue = true := by
  intro m hm
  simp only [ExecuteSearch] at hm
  rw [if_pos (And.intro hf ht)] at hm
  set fmL := (searchTablesByFuzzyName env fuzzyName).result.getD [] with hfmL
  set L := fmL.map (fun m => m.name) with hLdef
  have hLne : ¬ (L = []) := by
    rw [hLdef]
    simp only [List.map_eq_nil_iff]
    exact hne
  rw [if_neg hLne] at hm
  simp only [searchTablesByTagValue] at hm
  have hm' : m ∈ (tagLoop env tagValue L).matchingTables := by
    by_cases hz : (tagLoop env tagValue L).matchingTables = []
    · rw [if_pos hz] at hm
      simp at hm
    · rw [if_neg hz] at hm
      simpa using hm
  obtain ⟨h1, h2, h3⟩ := mem_tagLoop env tagValue L m hm'
  refine ⟨?_, h3⟩
  rw [hLdef] at h1
  obtain ⟨m', hm'mem, hname⟩ := List.mem_map.mp h1
  rcases hgl : GetTableList env.pages with ⟨ns, err⟩
  cases err with
  | some e =>
    exfalso
    apply hne
    rw [hfmL]
    simp [searchTablesByFuzzyName, hgl]
  | none =>
    have hfm : fmL = (fuzzyLoop env fuzzyName ns).matchingTables := by
      rw [hfmL]
      simp only [searchTablesByFuzzyName, hgl, Option.getD_some]
    have hmem2 : m' ∈ (fuzzyLoop env fuzzyName ns).matchingTables := hfm ▸ hm'mem
    have harn' := ((mem_fuzzyLoop env fuzzyName ns m').mp hmem2).2.2
    have heq : m' = m := by
      rw [hname, h2] at harn'
      injection harn' with h4
      cases m
      cases m'
      simp only at hname h4
      rw [hname, h4]
    simp only [ExecuteSearch]
    rw [if_neg (by rintro ⟨h5, h6⟩; exact h6 rfl)]
    rw [if_pos hf]
    show m ∈ fmL
    rw [hfm]
    exact heq ▸ hmem2

/-- Environment for the C5 witness: one table "abtbl" (contains the pattern
"ab") carrying a tag with value "t". -/
def envC5w : SearchEnv :=
  { pages := [Except.ok ["abtbl".toList]]
  , arnOf := fun _ => Except.ok "arn-ab".toList
  , tagsOf := fun _ => Except.ok [{ key := "k".toList, value := "t".toList }] }

/-- Witness for `C5_amended_and_semantics` at the concrete environment
`envC5w` with pattern "ab" and tag value "t". -/
theorem C5_amended_witness :
    "ab".toList ≠ ([] : GoStr) ∧ "t".toList ≠ ([] : GoStr) ∧
      (searchTablesByFuzzyName envC5w "ab".toList).result.getD [] ≠ [] ∧
      (∀ m ∈ (ExecuteSearch envC5w "ab".toList "t".toList).result.getD [],
        m ∈ (ExecuteSearch envC5w "ab".toList []).result.getD [] ∧
          hasTagWithValue envC5w m.arn "t".toList = true) :=
  ⟨by decide, by decide, by decide,
   C5_amended_and_semantics envC5w "ab".toList "t".toList (by decide) (by decide)
     (by decide)⟩

/-- `client.DefaultRcu`. -/
def DefaultRcu : Int := 5

/-- `client.DefaultWcu`. -/
def DefaultWcu : Int := 5

/-- The part of a `DescribeTable` response that `client.GetCurrentBillingMode`
reads: the billing-mode summary (absent when AWS omits it) and the
provisioned throughput numbers (`aws.ToInt64` of the pointers). -/
structure TableDesc where
  billingModeSummary : Option String
  readUnits : Int
  writeUnits : Int
deriving DecidableEq

/-- The repository collaborator as the update path sees it: the
`DescribeTable` outcome and the outcome shared by the mutating `UpdateTable`
calls (`none` = success, `some e` = the error). -/
structure UpdateEnv where
  describe : Except String TableDesc
  updateResult : Option String

/-- The `dynamodb.UpdateTableInput` payload as the manager fills it in:
`billingMode` is set only where the Go code sets it, and
`provisionedThroughput` is the (RCU, WCU) pair when present. -/
structure UpdateTableInput where
  tableName : String
  billingMode : Option String
  provisionedThroughput : Option (Int × Int)
deriving DecidableEq

/-- What an update operation returns plus its observable effects: the Go
error return (`none` = nil), the mutating `UpdateTable` calls issued, and
the log records. -/
structure UpdateOutcome where
  result : Option String
  calls : List UpdateTableInput
  logs : List LogEntry
deriving DecidableEq

def msgErrUpdatingProvisioned : String := "Error updating provisioned capacity: %v"
def msgProvisionedUpdated : String :=
  "Provisioned capacity updated for table:%s - RCU: %d, WCU: %d"
def msgErrSwitchOnDemand : String := "error switching to on-demand capacity: %v"
def msgSwitchedOnDemand : String := "Switched to on-demand capacity for table: %s\n"
def msgErrGetBillingMode : String :=
  "Failed to get the billing mode info of table:%s : as current billing mode due to error:%v"
def msgNoNeedSwitch : String := "No need to switch, as it already is on demand mode!"
def msgModeNoModification : String :=
  "Failed to update table:%s : as current billing mode:%s - does not support modification of rcu or wcu"
def msgNoNeedUpdate : String :=
  "No need to update, as it already is provisioned mode or remain the same rcu and wcu!"
def errFailedUpdateTable : String := "Failed to update the table!"

/-- The local `billingMode` variable of `client.GetCurrentBillingMode`:
`fmt.Sprintf("%v", ...)` of the summary when present, `""` otherwise. -/
def billingModeOf (t : TableDesc) : String :=
  match t.billingModeSummary with
  | some m => m
  | none => ""

def int64Max : Int := 9223372036854775807
def int64Min : Int := -9223372036854775808

def digitsToNat : List Char → Nat → Nat
  | [], acc => acc
  | c :: cs, acc => digitsToNat cs (acc * 10 + (c.toNat - 48))

/-- Model of Go's `strconv.ParseInt(s, 10, 64)` as its caller uses the
returned value: the parsed integer, clamped to the int64 range on a range
error; 0 on a syntax error (the caller ignores the error return). -/
def goParseInt (s : String) : Int :=
  let signAndDigits : Bool × List Char :=
    match s.toList with
    | '+' :: rest => (false, rest)
    | '-' :: rest => (true, rest)
    | rest => (false, rest)
  let ds := signAndDigits.2
  if ds = [] ∨ ¬ (ds.all Char.isDigit = true) then 0
  else
    let v : Int := if signAndDigits.1 then -(digitsToNat ds 0 : Int) else (digitsToNat ds 0 : Int)
    if v < int64Min then int64Min else if v > int64Max then int64Max else v

/-- Model of `client.GetCurrentBillingMode`: the billing-mode string plus the
current units rendered with `%d`, which stay `""` unless the mode is
PROVISIONED. -/
def GetCurrentBillingMode (env : UpdateEnv) : Except String (String × String × String) :=
  match env.describe with
  | .error e => .error e
  | .ok t =>
    let billingMode := billingModeOf t
    let rcu := if billingMode = "PROVISIONED" then toString t.readUnits else ""
    let wcu := if billingMode = "PROVISIONED" then toString t.writeUnits else ""
    .ok (billingMode, rcu, wcu)

/-- Model of `client.UpdateProvisionedCapacity`: parses the non-empty unit
strings, substitutes the fixed defaults for blank ones when switching to
provisioned (and sets the billing mode only in that case), then issues the
single `UpdateTable` call. -/
def UpdateProvisionedCapacity (env : UpdateEnv) (switchToProvisioned : Bool)
    (tableName rcuStr wcuStr : String) : UpdateOutcome :=
  let rcuVal : Int := if rcuStr ≠ "" then goParseInt rcuStr else 0
  let wcuVal : Int := if wcuStr ≠ "" then goParseInt wcuStr else 0
  let input : UpdateTableInput :=
    if switchToProvisioned then
      { tableName := tableName
      , billingMode := some "PROVISIONED"
      , provisionedThroughput := some
          (if rcuStr = "" then DefaultRcu else rcuVal,
           if wcuStr = "" then DefaultWcu else wcuVal) }
    else
      { tableName := tableName
      , billingMode := none
      , provisionedThroughput := some (rcuVal, wcuVal) }
  match env.updateResult with
  | some e =>
    { result := some e, calls := [input], logs := [(.error, msgErrUpdatingProvisioned)] }
  | none =>
    { result := none, calls := [input], logs := [(.info, msgProvisionedUpdated)] }

/-- Model of `client.SwitchToOnDemandCapacity`: one `UpdateTable` call that
only sets the PAY_PER_REQUEST billing mode. -/
def SwitchToOnDemandCapacity (env : UpdateEnv) (tableName : String) : UpdateOutcome :=
  let input : UpdateTableInput :=
    { tableName := tableName
    , billingMode := some "PAY_PER_REQUEST"
    , provisionedThroughput := none }
  match env.updateResult with
  | some e =>
    { result := some e, calls := [input], logs := [(.error, msgErrSwitchOnDemand)] }
  | none =>
    { result := none, calls := [input], logs := [(.info, msgSwitchedOnDemand)] }

/-- Model of `update.ExecuteUpdate`: fetch the current billing mode, then
decide between the on-demand switch, the provisioned-precondition error, the
unconditional both-blank update, the string-compared provisioned update, and
the no-op. -/
def ExecuteUpdate (env : UpdateEnv) (tableName paramRcu paramWcu : String)
    (switchToOnDemand switchToProvisioned : Bool) : UpdateOutcome :=
  match GetCurrentBillingMode env with
  | .error _ =>
    { result := some errFailedUpdateTable, calls := []
    , logs := [(.error, msgErrGetBillingMode)] }
  | .ok (billingMode, rcu, wcu) =>
    if switchToOnDemand then
      if billingMode ≠ "PAY_PER_REQUEST" then SwitchToOnDemandCapacity env tableName
      else { result := none, calls := [], logs := [(.warn, msgNoNeedSwitch)] }
    else
      if billingMode ≠ "PROVISIONED" ∧ ¬ switchToProvisioned then
        { result := some errFailedUpdateTable, calls := []
        , logs := [(.error, msgModeNoModification)] }
      else if paramRcu = "" ∧ paramWcu = "" then
        UpdateProvisionedCapacity env switchToProvisioned tableName "" ""
      else
        let paramRcu' := if paramRcu = "" then toString DefaultRcu else paramRcu
        let paramWcu' := if paramWcu = "" then toString DefaultWcu else paramWcu
        if paramRcu' ≠ rcu ∨ paramWcu' ≠ wcu then
          UpdateProvisionedCapacity env switchToProvisioned tableName paramRcu' paramWcu'
        else { result := none, calls := [], logs := [(.warn, msgNoNeedUpdate)] }

theorem updateProvisionedCapacity_spec (env : UpdateEnv) (switchToProvisioned : Bool)
    (tableName rcuStr wcuStr : String) (hr : rcuStr ≠ "") (hw : wcuStr ≠ "") :
    UpdateProvisionedCapacity env switchToProvisioned tableName rcuStr wcuStr =
      { result := env.updateResult
      , calls := [{ tableName := tableName
                  , billingMode := if switchToProvisioned then some "PROVISIONED" else none
                  , provisionedThroughput := some (goParseInt rcuStr, goParseInt wcuStr) }]
      , logs := [if env.updateResult.isSome then (LogLevel.error, msgErrUpdatingProvisioned)
                 else (LogLevel.info, msgProvisionedUpdated)] } := by
  cases hur : env.updateResult <;> cases switchToProvisioned <;>
    simp [UpdateProvisionedCapacity, hr, hw, hur]

theorem executeUpdate_params_reduction (env : UpdateEnv) (desc : TableDesc)
    (tableName paramRcu paramWcu : String) (switchToProvisioned : Bool)
    (hdesc : env.describe = Except.ok desc)
    (hpre : billingModeOf desc = "PROVISIONED" ∨ switchToProvisioned = true)
    (hunits : ¬ (paramRcu = "" ∧ paramWcu = "")) :
    ExecuteUpdate env tableName paramRcu paramWcu false switchToProvisioned =
      if (if paramRcu = "" then toString DefaultRcu else paramRcu)
            ≠ (if billingModeOf desc = "PROVISIONED" then toString desc.readUnits else "")
          ∨ (if paramWcu = "" then toString DefaultWcu else paramWcu)
            ≠ (if billingModeOf desc = "PROVISIONED" then toString desc.writeUnits else "") then
        UpdateProvisionedCapacity env switchToProvisioned tableName
          (if paramRcu = "" then toString DefaultRcu else paramRcu)
          (if paramWcu = "" then toString DefaultWcu else paramWcu)
      else { result := none, calls := [], logs := [(LogLevel.warn, msgNoNeedUpdate)] } := by
  simp only [ExecuteUpdate, GetCurrentBillingMode, hdesc]
  rw [if_neg (by simp)]
  rw [if_neg (by
    rintro ⟨hbm, hsw⟩
    rcases hpre with h | h
    · exact hbm h
    · exact hsw h)]
  rw [if_neg hunits]

/-- Environment for claim C3: a PROVISIONED table at (5, 5) whose mutating
calls succeed. -/
def envC3 : UpdateEnv :=
  { describe := Except.ok { billingModeSummary := some "PROVISIONED"
                          , readUnits := 5, writeUnits := 5 }
  , updateResult := none }

/-- Claim C3 is false as stated: against a PROVISIONED table at (5, 5),
requesting units "05" and "5" — whose resolved numeric values equal the
current pair, with the mode already PROVISIONED — still issues a mutating
update, because the code compares the decimal strings ("05" ≠ "5") rather
than the numeric values. -/
theorem C3_counterexample :
    goParseInt "05" = 5 ∧ goParseInt "5" = 5 ∧
      billingModeOf { billingModeSummary := some "PROVISIONED", readUnits := 5, writeUnits := 5 }
        = "PROVISIONED" ∧
      (ExecuteUpdate envC3 "t" "05" "5" false true).calls =
        [{ tableName := "t", billingMode := some "PROVISIONED"
         , provisionedThroughput := some (5, 5) }] := by
  decide

/-- Claim C3, amended: with provisioned capacity requested and at least one
explicit unit, blank units resolve to the fixed default "5", and the
operation is a NoOp (success, zero mutating calls) if and only if the
resolved unit strings equal the decimal representations of the table's
current units and the mode is already PROVISIONED (string equality, so a
non-canonical numeral such as "05" mutates even when numerically equal);
otherwise exactly one mutating update is issued with the resolved units. -/
theorem C3_amended_provisioned_units_plan (env : UpdateEnv) (desc : TableDesc)
    (tableName paramRcu paramWcu : String) (switchToProvisioned : Bool)
    (hdesc : env.describe = Except.ok desc)
    (hpre : billingModeOf desc = "PROVISIONED" ∨ switchToProvisioned = true)
    (hunits : paramRcu ≠ "" ∨ paramWcu ≠ "") :
    (((ExecuteUpdate env tableName paramRcu paramWcu false switchToProvisioned).result = none ∧
        (ExecuteUpdate env tableName paramRcu paramWcu false switchToProvisioned).calls = []) ↔
      (billingModeOf desc = "PROVISIONED" ∧
        (if paramRcu = "" then toString DefaultRcu else paramRcu) = toString desc.readUnits ∧
        (if paramWcu = "" then toString DefaultWcu else paramWcu) = toString desc.writeUnits)) ∧
    (¬ (billingModeOf desc = "PROVISIONED" ∧
        (if paramRcu = "" then toString DefaultRcu else paramRcu) = toString desc.readUnits ∧
        (if paramWcu = "" then toString DefaultWcu else paramWcu) = toString desc.writeUnits) →
      (ExecuteUpdate env tableName paramRcu paramWcu false switchToProvisioned).calls =
        [{ tableName := tableName
         , billingMode := if switchToProvisioned then some "PROVISIONED" else none
         , provisionedThroughput := some
             (goParseInt (if paramRcu = "" then toString DefaultRcu else paramRcu),
              goParseInt (if paramWcu = "" then toString DefaultWcu else paramWcu)) }] ∧
      (ExecuteUpdate env tableName paramRcu paramWcu false switchToProvisioned).result
        = env.updateResult) := by
  have hunits' : ¬ (paramRcu = "" ∧ paramWcu = "") := by
    rintro ⟨h1, h2⟩
    rcases hunits with h | h
    · exact h h1
    · exact h h2
  have hr'ne : (if paramRcu = "" then toString DefaultRcu else paramRcu) ≠ "" := by
    by_cases hp : paramRcu = ""
    · rw [if_pos hp]
      decide
    · rw [if_neg hp]
      exact hp
  have hw'ne : (if paramWcu = "" then toString DefaultWcu else paramWcu) ≠ "" := by
    by_cases hp : paramWcu = ""
    · rw [if_pos hp]
      decide
    · rw [if_neg hp]
      exact hp
  rw [executeUpdate_params_reduction env desc tableName paramRcu paramWcu
    switchToProvisioned hdesc hpre hunits']
  by_cases hC : (if paramRcu = "" then toString DefaultRcu else paramRcu)
        ≠ (if billingModeOf desc = "PROVISIONED" then toString desc.readUnits else "")
      ∨ (if paramWcu = "" then toString DefaultWcu else paramWcu)
        ≠ (if billingModeOf desc = "PROVISIONED" then toString desc.writeUnits else "")
  · rw [if_pos hC]
    rw [updateProvisionedCapacity_spec env switchToProvisioned tableName _ _ hr'ne hw'ne]
    constructor
    · constructor
      · rintro ⟨hres, hcalls⟩
        simp at hcalls
      · rintro ⟨hbmp, hre, hwe⟩
        exfalso
        rcases hC with h | h
        · rw [if_pos hbmp] at h
          exact h hre
        · rw [if_pos hbmp] at h
          exact h hwe
    · intro _
      exact ⟨rfl, rfl⟩
  · rw [if_neg hC]
    push_neg at hC
    obtain ⟨hre, hwe⟩ := hC
    have hbmp : billingModeOf desc = "PROVISIONED" := by
      by_contra hb
      rw [if_neg hb] at hre
      exact hr'ne hre
    rw [if_pos hbmp] at hre hwe
    constructor
    · constructor
      · intro _
        exact ⟨hbmp, hre, hwe⟩
      · intro _
        exact ⟨rfl, rfl⟩
    · intro h
      exact absurd ⟨hbmp, hre, hwe⟩ h

/-- Witness for `C3_amended_provisioned_units_plan`: table PROVISIONED at
(5, 5), requested units "10"/"5" — a mutation with (10, 5). -/
theorem C3_amended_witness :
    envC3.describe = Except.ok { billingModeSummary := some "PROVISIONED"
                               , readUnits := 5, writeUnits := 5 } ∧
      ("10" ≠ "" ∨ "5" ≠ "") ∧
      (((ExecuteUpdate envC3 "t" "10" "5" false true).result = none ∧
          (ExecuteUpdate envC3 "t" "10" "5" false true).calls = []) ↔
        (billingModeOf { billingModeSummary := some "PROVISIONED"
                       , readUnits := 5, writeUnits := 5 } = "PROVISIONED" ∧
          (if "10" = "" then toString DefaultRcu else "10")
            = toString ({ billingModeSummary := some "PROVISIONED"
                        , readUnits := 5, writeUnits := 5 } : TableDesc).readUnits ∧
          (if "5" = "" then toString DefaultWcu else "5")
            = toString ({ billingModeSummary := some "PROVISIONED"
                        , readUnits := 5, writeUnits := 5 } : TableDesc).writeUnits)) :=
  ⟨rfl, Or.inl (by decide),
   (C3_amended_provisioned_units_plan envC3
     { billingModeSummary := some "PROVISIONED", readUnits := 5, writeUnits := 5 }
     "t" "10" "5" true rfl (Or.inr rfl) (Or.inl (by decide))).1⟩

/-- Claim C4: a bare RCU/WCU change against a table whose current mode is
ON_DEMAND (reported as PAY_PER_REQUEST), without the switch-to-provisioned
flag, fails the precondition: the operation reports an error and issues zero
mutating calls. -/
theorem C4_bare_units_on_demand_error (env : UpdateEnv) (desc : TableDesc)
    (tableName paramRcu paramWcu : String)
    (hdesc : env.describe = Except.ok desc)
    (hmode : billingModeOf desc = "PAY_PER_REQUEST")
    (hunits : paramRcu ≠ "" ∨ paramWcu ≠ "") :
    (ExecuteUpdate env tableName paramRcu paramWcu false false).result
        = some errFailedUpdateTable ∧
      (ExecuteUpdate env tableName paramRcu paramWcu false false).calls = [] := by
  simp [ExecuteUpdate, GetCurrentBillingMode, hdesc, hmode]

/-- Environment for the C4 witness: an ON_DEMAND table. -/
def envC4 : UpdateEnv :=
  { describe := Except.ok { billingModeSummary := some "PAY_PER_REQUEST"
                          , readUnits := 0, writeUnits := 0 }
  , updateResult := none }

/-- Witness for `C4_bare_units_on_demand_error`: requesting RCU "10" against
the ON_DEMAND table without the switch flag. -/
theorem C4_witness :
    envC4.describe = Except.ok { billingModeSummary := some "PAY_PER_REQUEST"
                               , readUnits := 0, writeUnits := 0 } ∧
      billingModeOf { billingModeSummary := some "PAY_PER_REQUEST"
                    , readUnits := 0, writeUnits := 0 } = "PAY_PER_REQUEST" ∧
      ("10" ≠ "" ∨ "" ≠ "") ∧
      ((ExecuteUpdate envC4 "t" "10" "" false false).result
          = some errFailedUpdateTable ∧
        (ExecuteUpdate envC4 "t" "10" "" false false).calls = []) :=
  ⟨rfl, rfl, Or.inl (by decide),
   C4_bare_units_on_demand_error envC4
     { billingModeSummary := some "PAY_PER_REQUEST", readUnits := 0, writeUnits := 0 }
     "t" "10" "" rfl rfl (Or.inl (by decide))⟩

/-- Claim C7: switching to PROVISIONED with neither unit supplied issues
exactly one mutating call with the fixed defaults (5, 5) substituted,
whatever the table's current configuration — this path never produces a
NoOp, and its result is exactly the mutating call's outcome. -/
theorem C7_switch_provisioned_blank_units_always_mutates (env : UpdateEnv)
    (desc : TableDesc) (tableName : String)
    (hdesc : env.describe = Except.ok desc) :
    (ExecuteUpdate env tableName "" "" false true).calls =
        [{ tableName := tableName
         , billingMode := some "PROVISIONED"
         , provisionedThroughput := some (DefaultRcu, DefaultWcu) }] ∧
      (ExecuteUpdate env tableName "" "" false true).result = env.updateResult := by
  simp only [ExecuteUpdate, GetCurrentBillingMode, hdesc]
  rw [if_neg (by simp)]
  rw [if_neg (by rintro ⟨_, hsw⟩; exact hsw trivial)]
  rw [if_pos (by exact ⟨trivial, trivial⟩)]
  cases hur : env.updateResult <;> simp [UpdateProvisionedCapacity, hur]

/-- Environment for the C7 witness: a table that is already PROVISIONED at
exactly the default units (5, 5) — the path still mutates. -/
def envC7 : UpdateEnv :=
  { describe := Except.ok { billingModeSummary := some "PROVISIONED"
                          , readUnits := 5, writeUnits := 5 }
  , updateResult := none }

/-- Witness for `C7_switch_provisioned_blank_units_always_mutates` at a table
already PROVISIONED at (5, 5): one mutating call is still issued. -/
theorem C7_witness :
    envC7.describe = Except.ok { billingModeSummary := some "PROVISIONED"
                               , readUnits := 5, writeUnits := 5 } ∧
      ((ExecuteUpdate envC7 "t" "" "" false true).calls =
          [{ tableName := "t"
           , billingMode := some "PROVISIONED"
           , provisionedThroughput := some (DefaultRcu, DefaultWcu) }] ∧
        (ExecuteUpdate envC7 "t" "" "" false true).result = envC7.updateResult) :=
  ⟨rfl,
   C7_switch_provisioned_blank_units_always_mutates envC7
     { billingModeSummary := some "PROVISIONED", readUnits := 5, writeUnits := 5 }
     "t" rfl⟩

/-- Claim C8: requesting ON_DEMAND when the table is already ON_DEMAND
(PAY_PER_REQUEST) is an idempotent no-op: success, zero mutating calls, and
the informational no-op log. -/
theorem C8_on_demand_idempotent (env : UpdateEnv) (desc : TableDesc)
    (tableName paramRcu paramWcu : String) (switchToProvisioned : Bool)
    (hdesc : env.describe = Except.ok desc)
    (hmode : billingModeOf desc = "PAY_PER_REQUEST") :
    ExecuteUpdate env tableName paramRcu paramWcu true switchToProvisioned =
      { result := none, calls := [], logs := [(LogLevel.warn, msgNoNeedSwitch)] } := by
  simp [ExecuteUpdate, GetCurrentBillingMode, hdesc, hmode]

/-- Environment for the C8 witness: an ON_DEMAND table. -/
def envC8 : UpdateEnv :=
  { describe := Except.ok { billingModeSummary := some "PAY_PER_REQUEST"
                          , readUnits := 0, writeUnits := 0 }
  , updateResult := none }

/-- Witness for `C8_on_demand_idempotent` at the concrete ON_DEMAND table. -/
theorem C8_witness :
    envC8.describe = Except.ok { billingModeSummary := some "PAY_PER_REQUEST"
                               , readUnits := 0, writeUnits := 0 } ∧
      billingModeOf { billingModeSummary := some "PAY_PER_REQUEST"
                    , readUnits := 0, writeUnits := 0 } = "PAY_PER_REQUEST" ∧
      ExecuteUpdate envC8 "t" "" "" true false =
        { result := none, calls := [], logs := [(LogLevel.warn, msgNoNeedSwitch)] } :=
  ⟨rfl, rfl,
   C8_on_demand_idempotent envC8
     { billingModeSummary := some "PAY_PER_REQUEST", readUnits := 0, writeUnits := 0 }
     "t" "" "" false rfl rfl⟩
